import Mathlib

/-!
Verification development for the watercolour-processing repository.

The definitions below are a shallow embedding of the Python sources:

* src/src/watercolour_processing/database/db_manager.py
  (DatabaseError, DuplicateImageError, DatabaseManager with insert_image,
  get_image_by_md5, update_image, insert_rating, close_connection)
* src/src/watercolour_processing/ingestion/ingest_raw_images.py
  (compute_md5, extract_exif_date, ingest_raw_images and its inner
  helpers _process_file and _process_path, plus the extension defaulting)

Python exceptions are embedded as an Except monad over an explicit
exception value type; the exception class hierarchy is embedded
separately so that handler dispatch (except clauses) can be reasoned
about.  SQLite state is embedded as an explicit record of table contents
plus a connection-health flag: a false flag makes every statement raise
the sqlite3 error that each db_manager method wraps into DatabaseError,
which models environment failures (broken connection, I/O errors).

The file db_schema.sql is referenced by the sources and tests but is not
part of the given source tree, so the schema level constraints (CHECK,
UNIQUE, FOREIGN KEY) are modelled from the spec where indicated.
-/

/-- Embedding of the Python exception classes relevant to db_manager.py:
Exception, DatabaseError, DuplicateImageError (db_manager.py lines 15-21). -/
inductive PyExcClass where
  | exceptionBase
  | databaseError
  | duplicateImageError
deriving DecidableEq, Repr

/-- Superclass of each class, read off the class statements in
db_manager.py: DatabaseError extends Exception, DuplicateImageError
extends DatabaseError. -/
def pyParent : PyExcClass → Option PyExcClass
  | .exceptionBase => none
  | .databaseError => some .exceptionBase
  | .duplicateImageError => some .databaseError

/-- Walk the superclass chain collecting classes, with enough fuel for
the whole (finite) hierarchy. -/
def ancestorsAux : Nat → PyExcClass → List PyExcClass
  | 0, c => [c]
  | n + 1, c =>
    c :: (match pyParent c with
          | none => []
          | some p => ancestorsAux n p)

/-- All classes an instance of class c is an instance of: c itself and
its transitive superclasses. -/
def ancestors (c : PyExcClass) : List PyExcClass :=
  ancestorsAux 2 c

/-- Python isinstance based dispatch of an except clause: a handler
written for class h catches a raised exception of class c exactly when
h appears on the superclass chain of c. -/
def catches (h : PyExcClass) (c : PyExcClass) : Bool :=
  decide (h ∈ ancestors c)

/-- Python subclass test between exception classes. -/
def isSubclass (c d : PyExcClass) : Bool :=
  decide (d ∈ ancestors c)

/-- Dispatch across a sequence of except clauses: the first handler
whose class catches the raised class wins. -/
def firstHandler (hs : List PyExcClass) (c : PyExcClass) : Option PyExcClass :=
  hs.find? (fun h => catches h c)

/-- Exception values raised by the embedded code: DuplicateImageError
and DatabaseError, each carrying its message. -/
inductive PyExc where
  | duplicateImageError (msg : String)
  | databaseError (msg : String)
deriving DecidableEq, Repr

/-- The class of a raised exception value. -/
def PyExc.cls : PyExc → PyExcClass
  | .duplicateImageError _ => .duplicateImageError
  | .databaseError _ => .databaseError

instance {ε α : Type} [DecidableEq ε] [DecidableEq α] : DecidableEq (Except ε α) := fun x y =>
  match x, y with
  | .ok a, .ok b =>
    if h : a = b then isTrue (by rw [h]) else isFalse (fun hab => h (by cases hab; rfl))
  | .error a, .error b =>
    if h : a = b then isTrue (by rw [h]) else isFalse (fun hab => h (by cases hab; rfl))
  | .ok _, .error _ => isFalse (fun hab => by cases hab)
  | .error _, .ok _ => isFalse (fun hab => by cases hab)

/-- One row of the images table, with the columns named in the INSERT
statement of DatabaseManager.insert_image (db_manager.py lines 129-136). -/
structure ImageRow where
  image_id : Nat
  filename : String
  file_path : Option String
  md5_checksum : String
  is_raw : Nat
  parent_image_id : Option Nat
  date_taken : Option String
  order_in_batch : Option Nat
  pipeline_version : Option String
  flash_missing : Nat
  cropped : Nat
  cropped_date : Option String
  rotation_degrees : Nat
  rotated_date : Option String
deriving DecidableEq, Repr

/-- One row of the paintings table (db_manager.py insert_painting). -/
structure PaintingRow where
  painting_id : Nat
  name : Option String
  description : Option String
  explicit_year : Option Int
  inferred_year : Option Int
  personal_favourite : Nat
deriving DecidableEq, Repr

/-- One row of the ratings table (db_manager.py insert_rating). -/
structure RatingRow where
  rating_id : Nat
  painting_id : Nat
  image_id : Nat
  score : Int
  user : Option String
deriving DecidableEq, Repr

/-- The persistent SQLite state owned by DatabaseManager: the table
contents, the autoincrement counters for fresh row ids, and a
connection-health flag.  When connOk is false, every executed statement
raises a sqlite3 error, which each db_manager method wraps into
DatabaseError; this models persistence-layer failures of the
environment (bad file, broken or locked connection). -/
structure Db where
  connOk : Bool
  images : List ImageRow
  paintings : List PaintingRow
  ratings : List RatingRow
  nextImageId : Nat
  nextRatingId : Nat
deriving DecidableEq, Repr

/-- Whether some images row carries the given md5 fingerprint. -/
def md5Present (db : Db) (m : String) : Bool :=
  db.images.any (fun r => r.md5_checksum == m)

/-- Number of images rows carrying the given md5 fingerprint. -/
def countMd5 (db : Db) (m : String) : Nat :=
  (db.images.filter (fun r => r.md5_checksum == m)).length

/-- Invariant: no fingerprint occurs on more than one images row. -/
def UniqueMd5 (db : Db) : Prop :=
  ∀ m : String, countMd5 db m ≤ 1

/-- Invariant: the image id counter is fresh for the images table. -/
def ImageIdsFresh (db : Db) : Prop :=
  ∀ r ∈ db.images, r.image_id < db.nextImageId

/-- Invariant: the rating id counter is fresh for the ratings table. -/
def RatingIdsFresh (db : Db) : Prop :=
  ∀ r ∈ db.ratings, r.rating_id < db.nextRatingId

/-- Character class of the hexadecimal digits accepted by the schema
CHECK on md5_checksum. -/
def isHexChar (c : Char) : Bool :=
  (('0' ≤ c && c ≤ '9') || ('a' ≤ c && c ≤ 'f') || ('A' ≤ c && c ≤ 'F'))

/-- Modelled from the spec: db_schema.sql is not under src, and the spec
(section 6) gives images.md5_checksum a UNIQUE constraint and a CHECK
requiring exactly 32 hexadecimal characters; test_db.py
test_insert_invalid_md5 confirms the CHECK raises IntegrityError. -/
def isHex32 (s : String) : Bool :=
  s.length == 32 && s.data.all isHexChar

/-- Appending a freshly inserted row to the images table. -/
def dbWithImage (db : Db) (row : ImageRow) : Db :=
  { db with images := db.images ++ [row], nextImageId := db.nextImageId + 1 }

/-- Execution of the INSERT INTO images statement against the schema.
Modelled from the spec for the schema constraints (db_schema.sql is not
under src): CHECK 32-hex on md5_checksum, UNIQUE on md5_checksum, and
the parent_image_id FOREIGN KEY, enforced because open_connection turns
PRAGMA foreign_keys on.  Any violation raises a sqlite3 error message. -/
def sqliteInsertImage (db : Db) (row : ImageRow) : Except String Db :=
  if db.connOk = false then
    .error "sqlite3.OperationalError: database connection failed"
  else if isHex32 row.md5_checksum = false then
    .error "sqlite3.IntegrityError: CHECK constraint failed: md5_checksum"
  else if db.images.any (fun r => r.md5_checksum == row.md5_checksum) then
    .error "sqlite3.IntegrityError: UNIQUE constraint failed: images.md5_checksum"
  else
    match row.parent_image_id with
    | some pid =>
      if db.images.any (fun r => r.image_id == pid) then .ok (dbWithImage db row)
      else .error "sqlite3.IntegrityError: FOREIGN KEY constraint failed"
    | none => .ok (dbWithImage db row)

/-- DatabaseManager.get_image_by_md5 (db_manager.py lines 164-176):
SELECT by md5, returning the row or none; a sqlite3 error is wrapped
into DatabaseError. -/
def get_image_by_md5 (db : Db) (md5_checksum : String) : Except PyExc (Option ImageRow) :=
  if db.connOk then .ok (db.images.find? (fun r => r.md5_checksum == md5_checksum))
  else .error (PyExc.databaseError ("Error retrieving image by MD5=" ++ md5_checksum))

/-- The images row assembled by the VALUES tuple of insert_image, with
the fresh image id the INSERT will assign. -/
def mkImageRow (db : Db) (filename : String) (file_path : Option String)
    (md5_checksum : String) (is_raw : Nat) (parent_image_id : Option Nat)
    (date_taken : Option String) (order_in_batch : Option Nat)
    (pipeline_version : Option String) (flash_missing : Nat) (cropped : Nat)
    (cropped_date : Option String) (rotation_degrees : Nat)
    (rotated_date : Option String) : ImageRow :=
  { image_id := db.nextImageId, filename := filename, file_path := file_path,
    md5_checksum := md5_checksum, is_raw := is_raw,
    parent_image_id := parent_image_id, date_taken := date_taken,
    order_in_batch := order_in_batch, pipeline_version := pipeline_version,
    flash_missing := flash_missing, cropped := cropped,
    cropped_date := cropped_date, rotation_degrees := rotation_degrees,
    rotated_date := rotated_date }

/-- DatabaseManager.insert_image (db_manager.py lines 108-162): first an
explicit duplicate pre-check through get_image_by_md5, raising
DuplicateImageError when the fingerprint is already present; otherwise
the INSERT is executed and a new image id returned, any sqlite3 error
being wrapped into DatabaseError. -/
def insert_image (db : Db) (filename : String) (file_path : Option String)
    (md5_checksum : String) (is_raw : Nat) (parent_image_id : Option Nat)
    (date_taken : Option String) (order_in_batch : Option Nat)
    (pipeline_version : Option String) (flash_missing : Nat) (cropped : Nat)
    (cropped_date : Option String) (rotation_degrees : Nat)
    (rotated_date : Option String) : Except PyExc (Nat × Db) :=
  match get_image_by_md5 db md5_checksum with
  | .error e => .error e
  | .ok (some _) => .error (PyExc.duplicateImageError ("Duplicate MD5: " ++ md5_checksum))
  | .ok none =>
    match sqliteInsertImage db
      (mkImageRow db filename file_path md5_checksum is_raw parent_image_id date_taken
        order_in_batch pipeline_version flash_missing cropped cropped_date
        rotation_degrees rotated_date) with
    | .ok db2 => .ok (db.nextImageId, db2)
    | .error m =>
      .error (PyExc.databaseError ("Error inserting image " ++ filename ++ ": " ++ m))

/-- The keyword arguments of an update_image call: one optional new
value per updatable images column.  Columns whose stored value is
itself optional take a doubly optional update (an outer some none sets
the column to NULL). -/
structure ImageUpdate where
  filename : Option String
  file_path : Option (Option String)
  md5_checksum : Option String
  is_raw : Option Nat
  parent_image_id : Option (Option Nat)
  date_taken : Option (Option String)
  order_in_batch : Option (Option Nat)
  pipeline_version : Option (Option String)
  flash_missing : Option Nat
  cropped : Option Nat
  cropped_date : Option (Option String)
  rotation_degrees : Option Nat
  rotated_date : Option (Option String)
deriving DecidableEq, Repr

/-- The empty keyword argument set. -/
def emptyImageUpdate : ImageUpdate :=
  ⟨none, none, none, none, none, none, none, none, none, none, none, none, none⟩

/-- The Python truthiness test if not kwargs. -/
def ImageUpdate.isEmpty (u : ImageUpdate) : Bool :=
  u.filename.isNone && u.file_path.isNone && u.md5_checksum.isNone &&
  u.is_raw.isNone && u.parent_image_id.isNone && u.date_taken.isNone &&
  u.order_in_batch.isNone && u.pipeline_version.isNone &&
  u.flash_missing.isNone && u.cropped.isNone && u.cropped_date.isNone &&
  u.rotation_degrees.isNone && u.rotated_date.isNone

/-- Effect of the generated SET clause on one row: each supplied column
takes its new value, every other column keeps its stored value. -/
def applyImageUpdate (r : ImageRow) (u : ImageUpdate) : ImageRow :=
  { image_id := r.image_id,
    filename := u.filename.getD r.filename,
    file_path := u.file_path.getD r.file_path,
    md5_checksum := u.md5_checksum.getD r.md5_checksum,
    is_raw := u.is_raw.getD r.is_raw,
    parent_image_id := u.parent_image_id.getD r.parent_image_id,
    date_taken := u.date_taken.getD r.date_taken,
    order_in_batch := u.order_in_batch.getD r.order_in_batch,
    pipeline_version := u.pipeline_version.getD r.pipeline_version,
    flash_missing := u.flash_missing.getD r.flash_missing,
    cropped := u.cropped.getD r.cropped,
    cropped_date := u.cropped_date.getD r.cropped_date,
    rotation_degrees := u.rotation_degrees.getD r.rotation_degrees,
    rotated_date := u.rotated_date.getD r.rotated_date }

/-- DatabaseManager.update_image (db_manager.py lines 178-202): with no
keyword arguments the method returns before any SQL is built or
executed; otherwise one UPDATE statement applies exactly the supplied
columns to the rows whose image_id matches.  The second component
counts the SQL statements executed (0 or 1).  A sqlite3 error is
wrapped into DatabaseError. -/
def update_image (db : Db) (image_id : Nat) (u : ImageUpdate) : Except PyExc (Db × Nat) :=
  if u.isEmpty then .ok (db, 0)
  else if db.connOk then
    .ok ({ db with images := db.images.map (fun r => if r.image_id == image_id then applyImageUpdate r u else r) }, 1)
  else .error (PyExc.databaseError ("Error updating image_id=" ++ toString image_id))

/-- Appending a freshly inserted row to the ratings table. -/
def dbWithRating (db : Db) (painting_id : Nat) (image_id : Nat) (score : Int)
    (user : Option String) : Db :=
  { db with
    ratings := db.ratings ++
      [{ rating_id := db.nextRatingId, painting_id := painting_id,
         image_id := image_id, score := score, user := user }],
    nextRatingId := db.nextRatingId + 1 }

/-- Execution of the INSERT INTO ratings statement against the schema.
Modelled from the spec for the schema constraints (db_schema.sql is not
under src): the spec (section 6) gives ratings.score CHECK 1..5 and
foreign keys to paintings and images, enforced because PRAGMA
foreign_keys is on; test_db.py test_ratings_invalid_score confirms the
CHECK raises IntegrityError. -/
def sqliteInsertRating (db : Db) (painting_id : Nat) (image_id : Nat) (score : Int)
    (user : Option String) : Except String (Nat × Db) :=
  if db.connOk = false then
    .error "sqlite3.OperationalError: database connection failed"
  else if (1 ≤ score ∧ score ≤ 5) then
    if db.paintings.any (fun p => p.painting_id == painting_id) then
      if db.images.any (fun r => r.image_id == image_id) then
        .ok (db.nextRatingId, dbWithRating db painting_id image_id score user)
      else .error "sqlite3.IntegrityError: FOREIGN KEY constraint failed"
    else .error "sqlite3.IntegrityError: FOREIGN KEY constraint failed"
  else .error "sqlite3.IntegrityError: CHECK constraint failed: score"

/-- DatabaseManager.insert_rating (db_manager.py lines 282-305): runs
the INSERT and returns the new rating id; any sqlite3 error (range
CHECK, foreign keys, connection) is wrapped into DatabaseError. -/
def insert_rating (db : Db) (painting_id : Nat) (image_id : Nat) (score : Int)
    (user : Option String) : Except PyExc (Nat × Db) :=
  match sqliteInsertRating db painting_id image_id score user with
  | .ok r => .ok r
  | .error m =>
    .error (PyExc.databaseError
      ("Error inserting rating for painting_id=" ++ toString painting_id ++
       ", image_id=" ++ toString image_id ++ ": " ++ m))

/-- DatabaseManager.close_connection (db_manager.py lines 52-62): if a
connection is held it is closed and the handle cleared; with no held
connection the method does nothing.  Neither path raises in this model
(the sqlite3 close error branch is environment specific). -/
def close_connection : Option Unit → Except PyExc (Option Unit)
  | some _ => .ok none
  | none => .ok none

/-- Modelled from the spec: the with statement over DatabaseManager at
ingest_raw_images.py line 82 and in the tests relies on context manager
methods of DatabaseManager that are not defined in the sources under
src; per spec section 4.1, acquiring the store as a scoped resource
succeeds and close runs on every exit path, including abnormal ones.
The result pairs the body outcome with the connection handle after
exit. -/
def withDatabaseManager {α : Type} (db : Db) (body : Db → Except PyExc (α × Db)) :
    Except PyExc (α × Db) × Option Unit :=
  match body db with
  | .ok r =>
    (.ok r, match close_connection (some ()) with | .ok c => c | .error _ => some ())
  | .error e =>
    (.error e, match close_connection (some ()) with | .ok c => c | .error _ => some ())

/-- Python str.lower restricted to the ASCII range, as applied to file
extensions and allow-list comparisons. -/
def lowerStr (s : String) : String :=
  String.mk (s.data.map Char.toLower)

/-- Characters of the basename: everything after the last path
separator, as os.path.basename and os.path.splitext use it. -/
def basenameChars (p : String) : List Char :=
  (p.data.reverse.takeWhile (fun c => c ≠ '/')).reverse

/-- Python os.path.basename for POSIX paths. -/
def basenameOf (p : String) : String :=
  String.mk (basenameChars p)

/-- Extension of a basename, following CPython genericpath._splitext:
the extension starts at the last dot, provided some earlier character
of the basename is not a dot (so dotfiles have no extension). -/
def extOfBase (base : List Char) : List Char :=
  let rev := base.reverse
  let extRev := rev.takeWhile (fun c => c ≠ '.')
  if extRev.length = rev.length then []
  else
    let stem := (rev.drop (extRev.length + 1)).reverse
    if stem.any (fun c => c ≠ '.') then '.' :: extRev.reverse else []

/-- The second component of os.path.splitext. -/
def splitextExt (p : String) : String :=
  String.mk (extOfBase (basenameChars p))

/-- The lowered suffix computed by _process_file
(ingest_raw_images.py line 88): os.path.splitext of the absolute path,
then str.lower. -/
def extLower (p : String) : String :=
  lowerStr (splitextExt p)

/-- Fixed size 2 to the 32, the word modulus of the hash arithmetic. -/
def M32 : Nat := 4294967296

/-- Left rotation of a 32 bit word. -/
def rotl (x n : Nat) : Nat :=
  ((x % M32) * 2 ^ n + (x % M32) / 2 ^ (32 - n)) % M32

/-- Bitwise complement within 32 bits. -/
def comp32 (a : Nat) : Nat := Nat.xor (M32 - 1) (a % M32)

/-- Round function F of MD5 (RFC 1321). -/
def mdF (b c d : Nat) : Nat := Nat.lor (Nat.land b c) (Nat.land (comp32 b) d)

/-- Round function G of MD5. -/
def mdG (b c d : Nat) : Nat := Nat.lor (Nat.land b d) (Nat.land c (comp32 d))

/-- Round function H of MD5. -/
def mdH (b c d : Nat) : Nat := Nat.xor b (Nat.xor c d)

/-- Round function I of MD5. -/
def mdI (b c d : Nat) : Nat := Nat.xor c (Nat.lor b (comp32 d))

/-- The 64 sine derived constants of MD5 (RFC 1321). -/
def kTable : List Nat :=
  [0xd76aa478, 0xe8c7b756, 0x242070db, 0xc1bdceee,
   0xf57c0faf, 0x4787c62a, 0xa8304613, 0xfd469501,
   0x698098d8, 0x8b44f7af, 0xffff5bb1, 0x895cd7be,
   0x6b901122, 0xfd987193, 0xa679438e, 0x49b40821,
   0xf61e2562, 0xc040b340, 0x265e5a51, 0xe9b6c7aa,
   0xd62f105d, 0x02441453, 0xd8a1e681, 0xe7d3fbc8,
   0x21e1cde6, 0xc33707d6, 0xf4d50d87, 0x455a14ed,
   0xa9e3e905, 0xfcefa3f8, 0x676f02d9, 0x8d2a4c8a,
   0xfffa3942, 0x8771f681, 0x6d9d6122, 0xfde5380c,
   0xa4beea44, 0x4bdecfa9, 0xf6bb4b60, 0xbebfbc70,
   0x289b7ec6, 0xeaa127fa, 0xd4ef3085, 0x04881d05,
   0xd9d4d039, 0xe6db99e5, 0x1fa27cf8, 0xc4ac5665,
   0xf4292244, 0x432aff97, 0xab9423a7, 0xfc93a039,
   0x655b59c3, 0x8f0ccc92, 0xffeff47d, 0x85845dd1,
   0x6fa87e4f, 0xfe2ce6e0, 0xa3014314, 0x4e0811a1,
   0xf7537e82, 0xbd3af235, 0x2ad7d2bb, 0xeb86d391]

/-- The per round left rotation amounts of MD5. -/
def sTable : List Nat :=
  [7, 12, 17, 22, 7, 12, 17, 22, 7, 12, 17, 22, 7, 12, 17, 22,
   5, 9, 14, 20, 5, 9, 14, 20, 5, 9, 14, 20, 5, 9, 14, 20,
   4, 11, 16, 23, 4, 11, 16, 23, 4, 11, 16, 23, 4, 11, 16, 23,
   6, 10, 15, 21, 6, 10, 15, 21, 6, 10, 15, 21, 6, 10, 15, 21]

/-- A little endian 32 bit word assembled from four bytes. -/
def leWord (b0 b1 b2 b3 : Nat) : Nat :=
  b0 % 256 + 256 * (b1 % 256) + 65536 * (b2 % 256) + 16777216 * (b3 % 256)

/-- The sixteen little endian words of a 64 byte block. -/
def blockWords : List Nat → List Nat
  | b0 :: b1 :: b2 :: b3 :: rest => leWord b0 b1 b2 b3 :: blockWords rest
  | _ => []

/-- One of the 64 MD5 rounds, acting on the running (a, b, c, d)
state, with m the words of the current block and i the round index. -/
def md5Round (m : List Nat) (st : Nat × Nat × Nat × Nat) (i : Nat) : Nat × Nat × Nat × Nat :=
  let a := st.1
  let b := st.2.1
  let c := st.2.2.1
  let d := st.2.2.2
  let f := if i < 16 then mdF b c d
           else if i < 32 then mdG b c d
           else if i < 48 then mdH b c d
           else mdI b c d
  let g := if i < 16 then i
           else if i < 32 then (5 * i + 1) % 16
           else if i < 48 then (3 * i + 5) % 16
           else (7 * i) % 16
  let x := (f + a + kTable.getD i 0 + m.getD g 0) % M32
  (d, (b + rotl x (sTable.getD i 0)) % M32, b, c)

/-- Compression of one 64 byte block into the running state. -/
def md5Block (st : Nat × Nat × Nat × Nat) (block : List Nat) : Nat × Nat × Nat × Nat :=
  let m := blockWords block
  let r := (List.range 64).foldl (md5Round m) st
  ((st.1 + r.1) % M32, (st.2.1 + r.2.1) % M32,
   (st.2.2.1 + r.2.2.1) % M32, (st.2.2.2 + r.2.2.2) % M32)

/-- Eight little endian bytes of the 64 bit message bit length. -/
def lenBytes8 (n : Nat) : List Nat :=
  [n % 256, n / 256 % 256, n / 65536 % 256, n / 16777216 % 256,
   n / 4294967296 % 256, n / 1099511627776 % 256,
   n / 281474976710656 % 256, n / 72057594037927936 % 256]

/-- MD5 padding: a 0x80 byte, zeros up to 56 mod 64, then the bit
length in little endian. -/
def padMsg (msg : List Nat) : List Nat :=
  msg ++ 128 :: List.replicate ((119 - msg.length % 64) % 64) 0 ++ lenBytes8 (msg.length * 8)

/-- Splitting a byte list into consecutive chunks of the given size,
with fuel for structural recursion (fuel at least the list length
suffices for a positive size). -/
def chunksAux (size : Nat) : Nat → List Nat → List (List Nat)
  | _, [] => []
  | 0, _ :: _ => []
  | fuel + 1, x :: xs => (x :: xs).take size :: chunksAux size fuel ((x :: xs).drop size)

/-- Consecutive chunks of the given size covering the whole list. -/
def chunksOf (size : Nat) (l : List Nat) : List (List Nat) :=
  chunksAux size l.length l

/-- The MD5 initialisation vector. -/
def md5Init : Nat × Nat × Nat × Nat := (1732584193, 4023233417, 2562383102, 271733878)

/-- The MD5 state after absorbing a whole message. -/
def md5Core (msg : List Nat) : Nat × Nat × Nat × Nat :=
  (chunksOf 64 (padMsg msg)).foldl md5Block md5Init

/-- Four little endian bytes of a 32 bit word. -/
def toLE4 (x : Nat) : List Nat :=
  [x % 256, x / 256 % 256, x / 65536 % 256, x / 16777216 % 256]

/-- The sixteen digest bytes of MD5 over a byte list. -/
def md5Bytes (msg : List Nat) : List Nat :=
  toLE4 (md5Core msg).1 ++ toLE4 (md5Core msg).2.1 ++
  toLE4 (md5Core msg).2.2.1 ++ toLE4 (md5Core msg).2.2.2

/-- The sixteen lowercase hexadecimal digit characters. -/
def hexDigits : List Char :=
  "0123456789abcdef".data

/-- Hexadecimal digit character of a value below 16. -/
def hexChar (n : Nat) : Char :=
  hexDigits.getD n '0'

/-- Two lowercase hexadecimal characters of one byte. -/
def hexOfByte (b : Nat) : List Char :=
  [hexChar (b / 16 % 16), hexChar (b % 16)]

/-- The lowercase hexadecimal MD5 digest of a byte list, as
hashlib.md5(...).hexdigest() yields it. -/
def md5Hex (msg : List Nat) : String :=
  String.mk ((md5Bytes msg).map hexOfByte).flatten

/-- A candidate file as the ingestion pipeline observes it: its
(absolute, POSIX) path, its byte content, and what the exifread library
would deliver for it.  Identical byte content gives identical bytes to
the hash regardless of the path and metadata fields. -/
structure SrcFile where
  path : String
  content : List Nat
  exifReadable : Bool
  exifDateTimeOriginal : Option String
deriving DecidableEq, Repr

/-- In-memory state of the incremental hashlib.md5 object, modelled
extensionally as the bytes absorbed so far. -/
structure Md5Hasher where
  buf : List Nat
deriving DecidableEq, Repr

/-- hasher.update(chunk): absorb one chunk. -/
def md5HasherUpdate (h : Md5Hasher) (chunk : List Nat) : Md5Hasher :=
  ⟨h.buf ++ chunk⟩

/-- hasher.hexdigest(): the lowercase hexadecimal digest of everything
absorbed. -/
def md5Hexdigest (h : Md5Hasher) : String :=
  md5Hex h.buf

/-- compute_md5 (ingest_raw_images.py lines 20-28): open the file in
binary mode and fold its contents into the hash in chunks produced by
f.read(4096), then return the lowercase hexadecimal digest.  Only the
byte content of the file is read. -/
def compute_md5 (f : SrcFile) : String :=
  md5Hexdigest ((chunksOf 4096 f.content).foldl md5HasherUpdate ⟨[]⟩)

/-- Whitespace class of Python str.split with no separator. -/
def pyIsSpace (c : Char) : Bool :=
  c = ' ' || c = '\t' || c = '\n' || c = '\r' || c = '\x0b' || c = '\x0c'

/-- Helper for Python str.split with no separator: split on runs of
whitespace, discarding empty fields; acc holds the current field in
reverse. -/
def wsplitAux : List Char → List Char → List (List Char)
  | [], acc => if acc.isEmpty then [] else [acc.reverse]
  | c :: rest, acc =>
    if pyIsSpace c then
      if acc.isEmpty then wsplitAux rest [] else acc.reverse :: wsplitAux rest []
    else wsplitAux rest (c :: acc)

/-- Python str.split with no separator over the characters of a string. -/
def wsplit (l : List Char) : List (List Char) :=
  wsplitAux l []

/-- The character rewrite of date_part.replace applied by
extract_exif_date: every colon becomes a dash. -/
def colonDash (c : Char) : Char :=
  if c = ':' then '-' else c

/-- extract_exif_date (ingest_raw_images.py lines 30-46): read the
EXIF DateTimeOriginal tag; when the file is unreadable by exifread the
raised error is caught and None returned; a missing or falsy (empty)
tag returns None; otherwise the value is split on whitespace, and
unless it has exactly two fields the unpacking ValueError is caught and
None returned; with two fields the colons of the date field become
dashes and the fields are joined with a T.  The function is total:
every failure path yields none rather than an exception. -/
def extract_exif_date (f : SrcFile) : Option String :=
  if f.exifReadable then
    match f.exifDateTimeOriginal with
    | some v =>
      if v.data.isEmpty then none
      else
        match wsplit v.data with
        | [d, t] => some (String.mk (d.map colonDash ++ 'T' :: t))
        | _ => none
    | none => none
  else none

/-- Summary dictionary returned by ingest_raw_images
(ingest_raw_images.py line 79). -/
structure Stats where
  scanned : Nat
  inserted : Nat
  duplicates : Nat
  total_paths : Nat
deriving DecidableEq, Repr

/-- An input path handed to ingest_raw_images: a single file, a
directory (with the files os.walk enumerates beneath it, in walk
order), or an invalid path. -/
inductive PathInput where
  | file (f : SrcFile)
  | dir (fs : List SrcFile)
  | invalid (p : String)
deriving DecidableEq, Repr

/-- The candidate files an input path contributes. -/
def filesOfPath : PathInput → List SrcFile
  | .file f => [f]
  | .dir fs => fs
  | .invalid _ => []

/-- All candidate files of a run, in processing order. -/
def allFilesOf (ps : List PathInput) : List SrcFile :=
  (ps.map filesOfPath).flatten

/-- The extension defaulting of ingest_raw_images
(ingest_raw_images.py lines 70-77): None means the full default list,
and an explicitly empty list is also replaced by the default list. -/
def allImageExtensions : List String :=
  [".nef", ".png", ".jpg", ".jpeg", ".tif", ".tiff", ".gif", ".bmp",
   ".webp", ".heic", ".heif", ".raw"]

/-- Resolution of the extensions argument to the allow-list actually
used. -/
def resolveExtensions : Option (List String) → List String
  | none => allImageExtensions
  | some es => if es.length = 0 then allImageExtensions else es

/-- The inner _process_file (ingest_raw_images.py lines 84-112): filter
by lowered suffix against the allow-list (skipped files do not count as
scanned), then count the file as scanned, hash it, extract the EXIF
date, and insert; a DuplicateImageError from the insert is caught by
the except clause and counted, any other exception propagates.
Thumbnail creation for inserted images is modelled as succeeding. -/
def process_file (exts : List String) (pv : String) (acc : Stats × Db) (f : SrcFile) :
    Except PyExc (Stats × Db) :=
  if extLower f.path ∈ exts then
    let stats1 := { acc.1 with scanned := acc.1.scanned + 1 }
    match insert_image acc.2 (basenameOf f.path) (some f.path) (compute_md5 f) 1 none
        (extract_exif_date f) none (some pv) 0 0 none 0 none with
    | .ok r => .ok ({ stats1 with inserted := stats1.inserted + 1 }, r.2)
    | .error e =>
      if catches PyExcClass.duplicateImageError e.cls then
        .ok ({ stats1 with duplicates := stats1.duplicates + 1 }, acc.2)
      else .error e
  else .ok acc

/-- The loop over the files of one directory inside _process_path. -/
def process_files (exts : List String) (pv : String) :
    Stats × Db → List SrcFile → Except PyExc (Stats × Db)
  | acc, [] => .ok acc
  | acc, f :: fs =>
    match process_file exts pv acc f with
    | .ok acc2 => process_files exts pv acc2 fs
    | .error e => .error e

/-- The inner _process_path (ingest_raw_images.py lines 114-122): a
file is processed directly, a directory contributes each file beneath
it, an invalid path is logged and skipped. -/
def process_path (exts : List String) (pv : String) (acc : Stats × Db) :
    PathInput → Except PyExc (Stats × Db)
  | .file f => process_file exts pv acc f
  | .dir fs => process_files exts pv acc fs
  | .invalid _ => .ok acc

/-- The loop over the input paths (ingest_raw_images.py lines 125-126). -/
def process_paths (exts : List String) (pv : String) :
    Stats × Db → List PathInput → Except PyExc (Stats × Db)
  | acc, [] => .ok acc
  | acc, p :: ps =>
    match process_path exts pv acc p with
    | .ok acc2 => process_paths exts pv acc2 ps
    | .error e => .error e

/-- The body of the with block of ingest_raw_images: starting from the
zeroed summary (with total_paths the count of input paths), process
every input path. -/
def ingest_body (exts : List String) (pv : String) (paths : List PathInput) (db : Db) :
    Except PyExc (Stats × Db) :=
  process_paths exts pv
    ({ scanned := 0, inserted := 0, duplicates := 0, total_paths := paths.length }, db) paths

/-- ingest_raw_images (ingest_raw_images.py lines 48-129): resolve the
extension allow-list, open the store as a scoped resource and run the
ingestion body, returning the summary and the database state it
produced, or propagating the exception that aborted the run. -/
def ingest_raw_images (paths : List PathInput) (db : Db)
    (extensions : Option (List String)) (pipeline_version : String) :
    Except PyExc (Stats × Db) :=
  (withDatabaseManager db (ingest_body (resolveExtensions extensions) pipeline_version paths)).1

/-- Number of candidate files whose lowered suffix passes the
allow-list. -/
def countMatching (exts : List String) (fs : List SrcFile) : Nat :=
  (fs.filter (fun f => decide (extLower f.path ∈ exts))).length

/-- A genuinely case-insensitive suffix comparison: the file suffix and
each allow-list entry are both lowered before comparison.  This is the
comparison the spec sentence describes; the code lowers only the file
suffix. -/
def ciMatchExt (exts : List String) (p : String) : Bool :=
  exts.any (fun e => lowerStr e == extLower p)

/-- The keyword argument set of the claim about update_image: cropped
set to 1 and cropped_date set to the given timestamp. -/
def cropUpdate (t : String) : ImageUpdate :=
  { emptyImageUpdate with cropped := some 1, cropped_date := some (some t) }

/-- The summary of an ingestion outcome, when the run completed. -/
def statsOf : Except PyExc (Stats × Db) → Option Stats
  | .ok r => some r.1
  | .error _ => none

/-- Two files of identical byte content under different names, used to
exercise ingestion twice over one directory. -/
def exFileA : SrcFile := ⟨"/data/raw/a.nef", [0], false, none⟩

/-- Second file with the same content as exFileA. -/
def exFileB : SrcFile := ⟨"/data/raw/b.nef", [0], false, none⟩

/-- A fresh, healthy, empty database state. -/
def exDb0 : Db := ⟨true, [], [], [], 1, 1⟩

/-- First ingestion run over the directory holding the two
identical-content files. -/
def exRun1 : Except PyExc (Stats × Db) :=
  ingest_raw_images [.dir [exFileA, exFileB]] exDb0 (some [".nef"]) "v0.1.0"

/-- Second ingestion run over the same unchanged directory, against the
database state the first run left behind. -/
def exRun2 : Except PyExc (Stats × Db) :=
  match exRun1 with
  | .ok r => ingest_raw_images [.dir [exFileA, exFileB]] r.2 (some [".nef"]) "v0.1.0"
  | .error e => .error e

/-- A single candidate file used for the second-run witness. -/
def wFile : SrcFile := ⟨"/data/raw/w.nef", [1], false, none⟩

/-- The images row the first run over wFile inserts (55a54008... is the
md5 digest of the single byte 0x01). -/
def wRow : ImageRow :=
  ⟨1, "w.nef", some "/data/raw/w.nef", "55a54008ad1ba589aa210d2629c1df41", 1, none,
   none, none, some "v0.1.0", 0, 0, none, 0, none⟩

/-- The database state after the first run over wFile. -/
def wDb1 : Db := ⟨true, [wRow], [], [], 2, 1⟩

/-- A database whose connection is broken: every statement raises, so
insert_image fails with the wrapped storage error. -/
def badDb : Db := ⟨false, [], [], [], 1, 1⟩

/-- A database already holding the digest of cFile, so that inserting
cFile again raises the duplicate condition. -/
def dupDb : Db :=
  ⟨true,
   [⟨1, "a.nef", some "/data/raw/a.nef", "93b885adfe0da089cdf634904fd59f71", 1, none,
     none, none, some "v0.1.0", 0, 0, none, 0, none⟩],
   [], [], 2, 1⟩

/-- Candidate file for the error-propagation witnesses (93b885... is
the md5 digest of the single byte 0x00). -/
def cFile : SrcFile := ⟨"/data/raw/a.nef", [0], false, none⟩

/-- A file whose suffix matches the allow-list only under a genuinely
case-insensitive comparison against an uppercase entry. -/
def caseFile : SrcFile := ⟨"/data/raw/a.NEF", [0], false, none⟩

/-- An images row used by the duplicate-rejection witness. -/
def c1Row : ImageRow :=
  ⟨1, "x.nef", some "/data/raw/x.nef", "abcdef1234567890abcdef1234567890", 1, none,
   none, none, some "v0.1.0", 0, 0, none, 0, none⟩

/-- A database holding exactly one row with the witnessed fingerprint. -/
def c1Db : Db := ⟨true, [c1Row], [], [], 2, 1⟩

/-- A database with one painting and one image, so that in-range rating
inserts satisfy the foreign keys. -/
def c5Db : Db :=
  ⟨true, [c1Row], [⟨1, some "Sunset", none, some 2020, none, 0⟩], [], 2, 1⟩

/-- A file carrying a well-formed EXIF DateTimeOriginal value. -/
def exifFile : SrcFile := ⟨"/data/raw/e.nef", [0], true, some "2023:01:02 10:11:12"⟩

theorem wsplitAux_nosp (xs : List Char) : ∀ acc : List Char,
    (∀ c ∈ xs, pyIsSpace c = false) → (acc ≠ [] ∨ xs ≠ []) →
    wsplitAux xs acc = [acc.reverse ++ xs] := by
  induction xs with
  | nil =>
    intro acc _ hne
    rcases hne with h | h
    · cases acc with
      | nil => exact absurd rfl h
      | cons a acc' => simp [wsplitAux]
    · exact absurd rfl h
  | cons c rest ih =>
    intro acc hsp _
    have hc : pyIsSpace c = false := hsp c (List.mem_cons_self c rest)
    have hrest : ∀ x ∈ rest, pyIsSpace x = false :=
      fun x hx => hsp x (List.mem_cons_of_mem c hx)
    simp only [wsplitAux, hc, Bool.false_eq_true, if_false]
    rw [ih (c :: acc) hrest (Or.inl (List.cons_ne_nil c acc))]
    simp

theorem wsplitAux_sep (t : List Char) (ht : ∀ c ∈ t, pyIsSpace c = false)
    (htne : t ≠ []) : ∀ (d acc : List Char),
    (∀ c ∈ d, pyIsSpace c = false) → (acc ≠ [] ∨ d ≠ []) →
    wsplitAux (d ++ ' ' :: t) acc = (acc.reverse ++ d) :: [t] := by
  intro d
  induction d with
  | nil =>
    intro acc _ hne
    have hacc : acc ≠ [] := by
      rcases hne with h | h
      · exact h
      · exact absurd rfl h
    cases acc with
    | nil => exact absurd rfl hacc
    | cons a acc' =>
      have hsp : pyIsSpace ' ' = true := by decide
      simp only [List.nil_append, wsplitAux, hsp, if_true, List.isEmpty_cons,
        Bool.false_eq_true, if_false]
      rw [wsplitAux_nosp t [] ht (Or.inr htne)]
      simp
  | cons c d' ih =>
    intro acc hd _
    have hc : pyIsSpace c = false := hd c (List.mem_cons_self c d')
    have hd' : ∀ x ∈ d', pyIsSpace x = false :=
      fun x hx => hd x (List.mem_cons_of_mem c hx)
    simp only [List.cons_append, wsplitAux, hc, Bool.false_eq_true, if_false]
    have hstep := ih (c :: acc) hd' (Or.inl (List.cons_ne_nil c acc))
    simp only [List.reverse_cons, List.append_assoc, List.singleton_append] at hstep
    simpa using hstep

theorem wsplit_two (d t : List Char) (hd : ∀ c ∈ d, pyIsSpace c = false)
    (ht : ∀ c ∈ t, pyIsSpace c = false) (hdne : d ≠ []) (htne : t ≠ []) :
    wsplit (d ++ ' ' :: t) = [d, t] := by
  unfold wsplit
  rw [wsplitAux_sep t ht htne d [] hd (Or.inr hdne)]
  simp

theorem chunksAux_flatten (size : Nat) (hsize : 1 ≤ size) :
    ∀ (fuel : Nat) (l : List Nat), l.length ≤ fuel →
    (chunksAux size fuel l).flatten = l := by
  intro fuel
  induction fuel with
  | zero =>
    intro l hl
    have : l = [] := List.eq_nil_of_length_eq_zero (Nat.le_zero.mp hl)
    subst this
    simp [chunksAux]
  | succ n ih =>
    intro l hl
    cases l with
    | nil => simp [chunksAux]
    | cons x xs =>
      simp only [chunksAux, List.flatten_cons]
      rw [ih ((x :: xs).drop size) (by simp at hl ⊢; omega)]
      exact List.take_append_drop size (x :: xs)

theorem chunksAux_chunk_le (size : Nat) : ∀ (fuel : Nat) (l : List Nat),
    ∀ c ∈ chunksAux size fuel l, c.length ≤ size := by
  intro fuel
  induction fuel with
  | zero =>
    intro l c hc
    cases l with
    | nil => simp [chunksAux] at hc
    | cons x xs => simp [chunksAux] at hc
  | succ n ih =>
    intro l c hc
    cases l with
    | nil => simp [chunksAux] at hc
    | cons x xs =>
      simp only [chunksAux, List.mem_cons] at hc
      rcases hc with h | h
      · subst h
        simp [List.length_take]
      · exact ih ((x :: xs).drop size) c h

theorem foldl_md5HasherUpdate (cs : List (List Nat)) : ∀ b : List Nat,
    (cs.foldl md5HasherUpdate ⟨b⟩).buf = b ++ cs.flatten := by
  induction cs with
  | nil => intro b; simp
  | cons c cs ih =>
    intro b
    simp only [List.foldl_cons, List.flatten_cons]
    have : md5HasherUpdate ⟨b⟩ c = ⟨b ++ c⟩ := rfl
    rw [this, ih (b ++ c), List.append_assoc]

theorem compute_md5_eq (f : SrcFile) : compute_md5 f = md5Hex f.content := by
  unfold compute_md5 md5Hexdigest chunksOf
  rw [foldl_md5HasherUpdate]
  rw [chunksAux_flatten 4096 (by omega) f.content.length f.content (Nat.le_refl _)]
  simp

theorem hexChar_mem (n : Nat) : hexChar n ∈ hexDigits := by
  unfold hexChar
  rcases h : hexDigits[n]? with _ | c
  · rw [List.getD_eq_getElem?_getD, h]
    decide
  · rw [List.getD_eq_getElem?_getD, h]
    exact List.getElem?_mem h

theorem hexDigits_isHexChar : ∀ c ∈ hexDigits, isHexChar c = true := by decide

theorem hexBytes_flatten_spec (bs : List Nat) :
    ((bs.map hexOfByte).flatten).length = 2 * bs.length ∧
    ∀ c ∈ (bs.map hexOfByte).flatten, c ∈ hexDigits := by
  induction bs with
  | nil => simp
  | cons b bs ih =>
    constructor
    · simp only [List.map_cons, List.flatten_cons, List.length_append, ih.1,
        List.length_cons]
      simp [hexOfByte]
      omega
    · intro c hc
      simp only [List.map_cons, List.flatten_cons, List.mem_append] at hc
      rcases hc with h | h
      · simp only [hexOfByte, List.mem_cons, List.mem_singleton] at h
        rcases h with h | h | h
        · subst h; exact hexChar_mem _
        · subst h; exact hexChar_mem _
        · simp at h
      · exact ih.2 c h

theorem md5Bytes_length (m : List Nat) : (md5Bytes m).length = 16 := by
  simp [md5Bytes, toLE4]

theorem md5Hex_length (m : List Nat) : (md5Hex m).length = 32 := by
  have h := (hexBytes_flatten_spec (md5Bytes m)).1
  rw [md5Bytes_length] at h
  simpa [md5Hex, String.length] using h

theorem md5Hex_chars (m : List Nat) : ∀ c ∈ (md5Hex m).data, c ∈ hexDigits := by
  intro c hc
  exact (hexBytes_flatten_spec (md5Bytes m)).2 c hc

theorem md5Hex_isHex32 (m : List Nat) : isHex32 (md5Hex m) = true := by
  unfold isHex32
  rw [md5Hex_length]
  simp only [beq_self_eq_true, Bool.true_and]
  rw [List.all_eq_true]
  intro c hc
  exact hexDigits_isHexChar c (md5Hex_chars m c hc)

theorem find?_isSome_of_md5Present (db : Db) (m : String)
    (h : md5Present db m = true) :
    ∃ r, db.images.find? (fun r => r.md5_checksum == m) = some r := by
  cases hf : db.images.find? (fun r => r.md5_checksum == m) with
  | some r => exact ⟨r, rfl⟩
  | none =>
    rw [List.find?_eq_none] at hf
    rw [md5Present, List.any_eq_true] at h
    obtain ⟨r, hr, hp⟩ := h
    exact absurd hp (by simpa using hf r hr)

theorem find?_none_of_md5Present_false (db : Db) (m : String)
    (h : md5Present db m = false) :
    db.images.find? (fun r => r.md5_checksum == m) = none := by
  rw [md5Present, List.any_eq_false] at h
  rw [List.find?_eq_none]
  intro r hr
  simpa using h r hr

theorem md5Present_false_of_find?_none (db : Db) (m : String)
    (h : db.images.find? (fun r => r.md5_checksum == m) = none) :
    md5Present db m = false := by
  rw [List.find?_eq_none] at h
  rw [md5Present, List.any_eq_false]
  intro r hr
  simpa using h r hr

theorem md5Present_dbWithImage (db : Db) (row : ImageRow) (m : String) :
    md5Present (dbWithImage db row) m = (md5Present db m || (row.md5_checksum == m)) := by
  simp [md5Present, dbWithImage, List.any_append]

theorem connOk_dbWithImage (db : Db) (row : ImageRow) :
    (dbWithImage db row).connOk = db.connOk := rfl

theorem sqliteInsertImage_ok_inv (db : Db) (row : ImageRow) (db2 : Db)
    (h : sqliteInsertImage db row = .ok db2) : db2 = dbWithImage db row := by
  unfold sqliteInsertImage at h
  repeat' split at h
  all_goals simp_all

theorem sqliteInsertImage_ok_none_parent (db : Db) (row : ImageRow)
    (hconn : db.connOk = true) (hhex : isHex32 row.md5_checksum = true)
    (hany : (db.images.any fun r => r.md5_checksum == row.md5_checksum) = false)
    (hpid : row.parent_image_id = none) :
    sqliteInsertImage db row = .ok (dbWithImage db row) := by
  unfold sqliteInsertImage
  rw [hconn, hhex, hany, hpid]
  simp

theorem insert_image_dup (db : Db) (fn : String) (fp : Option String) (m : String)
    (ir : Nat) (pid : Option Nat) (dt : Option String) (ob : Option Nat)
    (pv : Option String) (fm cr : Nat) (cd : Option String) (rd : Nat)
    (rdd : Option String) (hconn : db.connOk = true) (hpres : md5Present db m = true) :
    insert_image db fn fp m ir pid dt ob pv fm cr cd rd rdd =
      .error (PyExc.duplicateImageError ("Duplicate MD5: " ++ m)) := by
  obtain ⟨r, hr⟩ := find?_isSome_of_md5Present db m hpres
  unfold insert_image get_image_by_md5
  rw [hconn]
  simp only [if_true, hr]

theorem insert_image_conn_false (db : Db) (fn : String) (fp : Option String)
    (m : String) (ir : Nat) (pid : Option Nat) (dt : Option String) (ob : Option Nat)
    (pv : Option String) (fm cr : Nat) (cd : Option String) (rd : Nat)
    (rdd : Option String) (hconn : db.connOk = false) :
    insert_image db fn fp m ir pid dt ob pv fm cr cd rd rdd =
      .error (PyExc.databaseError ("Error retrieving image by MD5=" ++ m)) := by
  unfold insert_image get_image_by_md5
  rw [hconn]
  simp

theorem insert_image_ok_inv (db : Db) (fn : String) (fp : Option String) (m : String)
    (ir : Nat) (pid : Option Nat) (dt : Option String) (ob : Option Nat)
    (pv : Option String) (fm cr : Nat) (cd : Option String) (rd : Nat)
    (rdd : Option String) (r : Nat × Db)
    (h : insert_image db fn fp m ir pid dt ob pv fm cr cd rd rdd = .ok r) :
    db.connOk = true ∧ md5Present db m = false ∧
    r = (db.nextImageId,
         dbWithImage db (mkImageRow db fn fp m ir pid dt ob pv fm cr cd rd rdd)) := by
  unfold insert_image get_image_by_md5 at h
  cases hc : db.connOk with
  | false => rw [hc] at h; simp at h
  | true =>
    rw [hc] at h
    simp only [if_true] at h
    cases hf : db.images.find? (fun r => r.md5_checksum == m) with
    | some r0 => rw [hf] at h; simp at h
    | none =>
      rw [hf] at h
      have hpres := md5Present_false_of_find?_none db m hf
      refine ⟨rfl, hpres, ?_⟩
      cases hs : sqliteInsertImage db (mkImageRow db fn fp m ir pid dt ob pv fm cr cd rd rdd) with
      | error msg => rw [hs] at h; simp at h
      | ok db2 =>
        rw [hs] at h
        simp only [Except.ok.injEq] at h
        rw [← h, sqliteInsertImage_ok_inv db _ db2 hs]

theorem insert_image_error_dup_inv (db : Db) (fn : String) (fp : Option String)
    (m : String) (ir : Nat) (pid : Option Nat) (dt : Option String) (ob : Option Nat)
    (pv : Option String) (fm cr : Nat) (cd : Option String) (rd : Nat)
    (rdd : Option String) (e : PyExc)
    (h : insert_image db fn fp m ir pid dt ob pv fm cr cd rd rdd = .error e)
    (hcls : e.cls = PyExcClass.duplicateImageError) :
    db.connOk = true ∧ md5Present db m = true ∧
    e = PyExc.duplicateImageError ("Duplicate MD5: " ++ m) := by
  unfold insert_image get_image_by_md5 at h
  cases hc : db.connOk with
  | false =>
    rw [hc] at h
    simp only [Bool.false_eq_true, if_false, Except.error.injEq] at h
    rw [← h] at hcls
    simp [PyExc.cls] at hcls
  | true =>
    rw [hc] at h
    simp only [if_true] at h
    cases hf : db.images.find? (fun r => r.md5_checksum == m) with
    | some r0 =>
      rw [hf] at h
      simp only [Except.error.injEq] at h
      refine ⟨rfl, ?_, h.symm⟩
      rw [md5Present, List.any_eq_true]
      have hmem := List.mem_of_find?_eq_some hf
      have hp := List.find?_some hf
      exact ⟨r0, hmem, hp⟩
    | none =>
      rw [hf] at h
      cases hs : sqliteInsertImage db (mkImageRow db fn fp m ir pid dt ob pv fm cr cd rd rdd) with
      | ok db2 => rw [hs] at h; simp at h
      | error msg =>
        rw [hs] at h
        simp only [Except.error.injEq] at h
        rw [← h] at hcls
        simp [PyExc.cls] at hcls

theorem insert_image_ok_none_parent (db : Db) (fn : String) (fp : Option String)
    (m : String) (ir : Nat) (dt : Option String) (ob : Option Nat)
    (pv : Option String) (fm cr : Nat) (cd : Option String) (rd : Nat)
    (rdd : Option String) (hconn : db.connOk = true)
    (hnot : md5Present db m = false) (hhex : isHex32 m = true) :
    insert_image db fn fp m ir none dt ob pv fm cr cd rd rdd =
      .ok (db.nextImageId,
           dbWithImage db (mkImageRow db fn fp m ir none dt ob pv fm cr cd rd rdd)) := by
  have hf := find?_none_of_md5Present_false db m hnot
  have hs := sqliteInsertImage_ok_none_parent db
    (mkImageRow db fn fp m ir none dt ob pv fm cr cd rd rdd) hconn
    (by simpa [mkImageRow] using hhex)
    (by simpa [mkImageRow, md5Present] using hnot)
    (by simp [mkImageRow])
  unfold insert_image get_image_by_md5
  rw [hconn, hf]
  simp only [if_true, hs]

theorem catches_dup_iff (c : PyExcClass) :
    catches PyExcClass.duplicateImageError c = true ↔ c = PyExcClass.duplicateImageError := by
  cases c <;> decide

theorem process_file_skip (exts : List String) (pv : String) (acc : Stats × Db)
    (f : SrcFile) (hm : extLower f.path ∉ exts) :
    process_file exts pv acc f = .ok acc := by
  unfold process_file
  rw [if_neg hm]

theorem process_file_dup (exts : List String) (pv : String) (s : Stats) (db : Db)
    (f : SrcFile) (hm : extLower f.path ∈ exts) (hconn : db.connOk = true)
    (hpres : md5Present db (compute_md5 f) = true) :
    process_file exts pv (s, db) f =
      .ok ({ s with scanned := s.scanned + 1, duplicates := s.duplicates + 1 }, db) := by
  unfold process_file
  rw [if_pos hm]
  rw [insert_image_dup db (basenameOf f.path) (some f.path) (compute_md5 f) 1 none
    (extract_exif_date f) none (some pv) 0 0 none 0 none hconn hpres]
  simp [PyExc.cls, catches, ancestors, ancestorsAux, pyParent]

theorem process_file_insert (exts : List String) (pv : String) (s : Stats) (db : Db)
    (f : SrcFile) (hm : extLower f.path ∈ exts) (hconn : db.connOk = true)
    (hnot : md5Present db (compute_md5 f) = false) :
    process_file exts pv (s, db) f =
      .ok ({ s with scanned := s.scanned + 1, inserted := s.inserted + 1 },
           dbWithImage db (mkImageRow db (basenameOf f.path) (some f.path)
             (compute_md5 f) 1 none (extract_exif_date f) none (some pv) 0 0 none 0 none)) := by
  unfold process_file
  rw [if_pos hm]
  rw [insert_image_ok_none_parent db (basenameOf f.path) (some f.path) (compute_md5 f)
    1 (extract_exif_date f) none (some pv) 0 0 none 0 none hconn hnot
    (by rw [compute_md5_eq]; exact md5Hex_isHex32 f.content)]

theorem process_file_error_prop (exts : List String) (pv : String) (s : Stats)
    (db : Db) (f : SrcFile) (e : PyExc) (hm : extLower f.path ∈ exts)
    (hi : insert_image db (basenameOf f.path) (some f.path) (compute_md5 f) 1 none
      (extract_exif_date f) none (some pv) 0 0 none 0 none = .error e)
    (hcat : catches PyExcClass.duplicateImageError e.cls = false) :
    process_file exts pv (s, db) f = .error e := by
  unfold process_file
  rw [if_pos hm, hi]
  simp [hcat]

theorem process_file_ok_inv (exts : List String) (pv : String) (s : Stats) (db : Db)
    (f : SrcFile) (s2 : Stats) (db2 : Db)
    (h : process_file exts pv (s, db) f = .ok (s2, db2)) :
    (∀ m, md5Present db m = true → md5Present db2 m = true) ∧
    db2.connOk = db.connOk ∧
    (extLower f.path ∈ exts → md5Present db2 (compute_md5 f) = true ∧ db.connOk = true) ∧
    s2.scanned = s.scanned + (if extLower f.path ∈ exts then 1 else 0) := by
  by_cases hm : extLower f.path ∈ exts
  · cases hi : insert_image db (basenameOf f.path) (some f.path) (compute_md5 f) 1 none
        (extract_exif_date f) none (some pv) 0 0 none 0 none with
    | ok r =>
      obtain ⟨hconn, hnot, hr⟩ := insert_image_ok_inv db _ _ _ _ _ _ _ _ _ _ _ _ _ r hi
      rw [process_file_insert exts pv s db f hm hconn hnot] at h
      simp only [Except.ok.injEq, Prod.mk.injEq] at h
      obtain ⟨hs2, hdb2⟩ := h
      refine ⟨?_, ?_, ?_, ?_⟩
      · intro m hmp
        rw [← hdb2, md5Present_dbWithImage, hmp]
        simp
      · rw [← hdb2, connOk_dbWithImage]
      · intro _
        refine ⟨?_, hconn⟩
        rw [← hdb2, md5Present_dbWithImage]
        simp [mkImageRow]
      · rw [← hs2, if_pos hm]
    | error e =>
      by_cases hcat : catches PyExcClass.duplicateImageError e.cls = true
      · obtain ⟨hconn, hpres, _⟩ := insert_image_error_dup_inv db _ _ _ _ _ _ _ _ _ _ _ _ _ e hi
          ((catches_dup_iff e.cls).mp hcat)
        rw [process_file_dup exts pv s db f hm hconn hpres] at h
        simp only [Except.ok.injEq, Prod.mk.injEq] at h
        obtain ⟨hs2, hdb2⟩ := h
        subst hdb2
        refine ⟨fun m hmp => hmp, rfl, fun _ => ⟨hpres, hconn⟩, ?_⟩
        rw [← hs2, if_pos hm]
      · rw [process_file_error_prop exts pv s db f e hm hi
          (Bool.eq_false_iff.mpr hcat)] at h
        simp at h
  · rw [process_file_skip exts pv (s, db) f hm] at h
    simp only [Except.ok.injEq, Prod.mk.injEq] at h
    obtain ⟨hs2, hdb2⟩ := h
    subst hs2; subst hdb2
    refine ⟨fun m hmp => hmp, rfl, fun hc => absurd hc hm, ?_⟩
    rw [if_neg hm]
    omega

theorem countMatching_nil (exts : List String) : countMatching exts [] = 0 := rfl

theorem countMatching_cons (exts : List String) (f : SrcFile) (fs : List SrcFile) :
    countMatching exts (f :: fs) =
      (if extLower f.path ∈ exts then 1 else 0) + countMatching exts fs := by
  unfold countMatching
  by_cases hm : extLower f.path ∈ exts
  · simp [hm, List.filter_cons, Nat.add_comm]
  · simp [hm, List.filter_cons]

theorem countMatching_append (exts : List String) (fs gs : List SrcFile) :
    countMatching exts (fs ++ gs) = countMatching exts fs + countMatching exts gs := by
  unfold countMatching
  rw [List.filter_append, List.length_append]

theorem process_files_ok_inv (exts : List String) (pv : String) :
    ∀ (fs : List SrcFile) (s : Stats) (db : Db) (s2 : Stats) (db2 : Db),
    process_files exts pv (s, db) fs = .ok (s2, db2) →
    (∀ m, md5Present db m = true → md5Present db2 m = true) ∧
    db2.connOk = db.connOk ∧
    (∀ f ∈ fs, extLower f.path ∈ exts → md5Present db2 (compute_md5 f) = true) ∧
    ((∃ f ∈ fs, extLower f.path ∈ exts) → db.connOk = true) ∧
    s2.scanned = s.scanned + countMatching exts fs := by
  intro fs
  induction fs with
  | nil =>
    intro s db s2 db2 h
    unfold process_files at h
    simp only [Except.ok.injEq, Prod.mk.injEq] at h
    obtain ⟨hs2, hdb2⟩ := h
    subst hs2; subst hdb2
    refine ⟨fun m hm => hm, rfl, by simp, by simp, by simp [countMatching]⟩
  | cons f fs ih =>
    intro s db s2 db2 h
    unfold process_files at h
    cases hpf : process_file exts pv (s, db) f with
    | error e => rw [hpf] at h; simp at h
    | ok acc2 =>
      rw [hpf] at h
      obtain ⟨s1, db1⟩ := acc2
      obtain ⟨hmono1, hconn1, hmatch1, hscan1⟩ := process_file_ok_inv exts pv s db f s1 db1 hpf
      obtain ⟨hmono2, hconn2, hcov2, hex2, hscan2⟩ := ih s1 db1 s2 db2 h
      refine ⟨fun m hm => hmono2 m (hmono1 m hm), by rw [hconn2, hconn1], ?_, ?_, ?_⟩
      · intro g hg hge
        rcases List.mem_cons.mp hg with hgf | hg'
        · subst hgf
          exact hmono2 _ (hmatch1 hge).1
        · exact hcov2 g hg' hge
      · rintro ⟨g, hg, hge⟩
        rcases List.mem_cons.mp hg with hgf | hg'
        · subst hgf
          exact (hmatch1 hge).2
        · rw [← hconn1]
          exact hex2 ⟨g, hg', hge⟩
      · rw [hscan2, hscan1, countMatching_cons]
        omega

theorem process_path_ok_inv (exts : List String) (pv : String) (p : PathInput)
    (s : Stats) (db : Db) (s2 : Stats) (db2 : Db)
    (h : process_path exts pv (s, db) p = .ok (s2, db2)) :
    (∀ m, md5Present db m = true → md5Present db2 m = true) ∧
    db2.connOk = db.connOk ∧
    (∀ f ∈ filesOfPath p, extLower f.path ∈ exts → md5Present db2 (compute_md5 f) = true) ∧
    ((∃ f ∈ filesOfPath p, extLower f.path ∈ exts) → db.connOk = true) ∧
    s2.scanned = s.scanned + countMatching exts (filesOfPath p) := by
  cases p with
  | file f =>
    obtain ⟨hmono, hconn, hmatch, hscan⟩ := process_file_ok_inv exts pv s db f s2 db2 h
    refine ⟨hmono, hconn, ?_, ?_, ?_⟩
    · intro g hg hge
      rcases List.mem_singleton.mp hg with rfl
      exact (hmatch hge).1
    · rintro ⟨g, hg, hge⟩
      rcases List.mem_singleton.mp hg with rfl
      exact (hmatch hge).2
    · rw [hscan]
      simp [countMatching_cons, countMatching_nil, filesOfPath]
  | dir fs =>
    exact process_files_ok_inv exts pv fs s db s2 db2 h
  | invalid q =>
    unfold process_path at h
    simp only [Except.ok.injEq, Prod.mk.injEq] at h
    obtain ⟨hs2, hdb2⟩ := h
    subst hs2; subst hdb2
    refine ⟨fun m hm => hm, rfl, by simp [filesOfPath], by simp [filesOfPath], ?_⟩
    simp [filesOfPath, countMatching]

theorem process_paths_ok_inv (exts : List String) (pv : String) :
    ∀ (ps : List PathInput) (s : Stats) (db : Db) (s2 : Stats) (db2 : Db),
    process_paths exts pv (s, db) ps = .ok (s2, db2) →
    (∀ m, md5Present db m = true → md5Present db2 m = true) ∧
    db2.connOk = db.connOk ∧
    (∀ f ∈ allFilesOf ps, extLower f.path ∈ exts → md5Present db2 (compute_md5 f) = true) ∧
    ((∃ f ∈ allFilesOf ps, extLower f.path ∈ exts) → db.connOk = true) ∧
    s2.scanned = s.scanned + countMatching exts (allFilesOf ps) := by
  intro ps
  induction ps with
  | nil =>
    intro s db s2 db2 h
    unfold process_paths at h
    simp only [Except.ok.injEq, Prod.mk.injEq] at h
    obtain ⟨hs2, hdb2⟩ := h
    subst hs2; subst hdb2
    refine ⟨fun m hm => hm, rfl, by simp [allFilesOf], by simp [allFilesOf], ?_⟩
    simp [allFilesOf, countMatching]
  | cons p ps ih =>
    intro s db s2 db2 h
    unfold process_paths at h
    cases hpp : process_path exts pv (s, db) p with
    | error e => rw [hpp] at h; simp at h
    | ok acc2 =>
      rw [hpp] at h
      obtain ⟨s1, db1⟩ := acc2
      obtain ⟨hmono1, hconn1, hmatch1, hex1, hscan1⟩ :=
        process_path_ok_inv exts pv p s db s1 db1 hpp
      obtain ⟨hmono2, hconn2, hcov2, hex2, hscan2⟩ := ih s1 db1 s2 db2 h
      have hall : allFilesOf (p :: ps) = filesOfPath p ++ allFilesOf ps := by
        simp [allFilesOf]
      refine ⟨fun m hm => hmono2 m (hmono1 m hm), by rw [hconn2, hconn1], ?_, ?_, ?_⟩
      · intro g hg hge
        rw [hall, List.mem_append] at hg
        rcases hg with hg' | hg'
        · exact hmono2 _ (hmatch1 g hg' hge)
        · exact hcov2 g hg' hge
      · rintro ⟨g, hg, hge⟩
        rw [hall, List.mem_append] at hg
        rcases hg with hg' | hg'
        · exact hex1 ⟨g, hg', hge⟩
        · rw [← hconn1]
          exact hex2 ⟨g, hg', hge⟩
      · rw [hscan2, hscan1, hall, countMatching_append]
        omega

theorem process_file_covered_run (exts : List String) (pv : String) (s : Stats)
    (db : Db) (f : SrcFile)
    (hconn : extLower f.path ∈ exts → db.connOk = true)
    (hcov : extLower f.path ∈ exts → md5Present db (compute_md5 f) = true) :
    process_file exts pv (s, db) f =
      .ok ({ s with
          scanned := s.scanned + (if extLower f.path ∈ exts then 1 else 0),
          duplicates := s.duplicates + (if extLower f.path ∈ exts then 1 else 0) }, db) := by
  by_cases hm : extLower f.path ∈ exts
  · rw [process_file_dup exts pv s db f hm (hconn hm) (hcov hm)]
    rw [if_pos hm]
  · rw [process_file_skip exts pv (s, db) f hm, if_neg hm]
    cases s
    simp

theorem process_files_covered_run (exts : List String) (pv : String) :
    ∀ (fs : List SrcFile) (s : Stats) (db : Db),
    ((∃ f ∈ fs, extLower f.path ∈ exts) → db.connOk = true) →
    (∀ f ∈ fs, extLower f.path ∈ exts → md5Present db (compute_md5 f) = true) →
    process_files exts pv (s, db) fs =
      .ok ({ s with
          scanned := s.scanned + countMatching exts fs,
          duplicates := s.duplicates + countMatching exts fs }, db) := by
  intro fs
  induction fs with
  | nil =>
    intro s db _ _
    unfold process_files
    rw [countMatching_nil]
    cases s
    simp
  | cons f fs ih =>
    intro s db hconn hcov
    unfold process_files
    rw [process_file_covered_run exts pv s db f
      (fun hm => hconn ⟨f, List.mem_cons_self f fs, hm⟩)
      (hcov f (List.mem_cons_self f fs))]
    show process_files exts pv (_, db) fs = _
    rw [ih _ db (fun hex => hconn (by rcases hex with ⟨g, hg, hge⟩; exact ⟨g, List.mem_cons_of_mem f hg, hge⟩))
      (fun g hg hge => hcov g (List.mem_cons_of_mem f hg) hge)]
    cases s
    simp [countMatching_cons, Nat.add_assoc]

theorem process_path_covered_run (exts : List String) (pv : String) (p : PathInput)
    (s : Stats) (db : Db)
    (hconn : (∃ f ∈ filesOfPath p, extLower f.path ∈ exts) → db.connOk = true)
    (hcov : ∀ f ∈ filesOfPath p, extLower f.path ∈ exts → md5Present db (compute_md5 f) = true) :
    process_path exts pv (s, db) p =
      .ok ({ s with
          scanned := s.scanned + countMatching exts (filesOfPath p),
          duplicates := s.duplicates + countMatching exts (filesOfPath p) }, db) := by
  cases p with
  | file f =>
    show process_file exts pv (s, db) f = _
    rw [process_file_covered_run exts pv s db f
      (fun hm => hconn ⟨f, List.mem_singleton_self f, hm⟩)
      (hcov f (List.mem_singleton_self f))]
    simp [filesOfPath, countMatching_cons, countMatching_nil]
  | dir fs =>
    exact process_files_covered_run exts pv fs s db hconn hcov
  | invalid q =>
    unfold process_path
    show Except.ok (s, db) = _
    cases s
    simp [filesOfPath, countMatching]

theorem process_paths_covered_run (exts : List String) (pv : String) :
    ∀ (ps : List PathInput) (s : Stats) (db : Db),
    ((∃ f ∈ allFilesOf ps, extLower f.path ∈ exts) → db.connOk = true) →
    (∀ f ∈ allFilesOf ps, extLower f.path ∈ exts → md5Present db (compute_md5 f) = true) →
    process_paths exts pv (s, db) ps =
      .ok ({ s with
          scanned := s.scanned + countMatching exts (allFilesOf ps),
          duplicates := s.duplicates + countMatching exts (allFilesOf ps) }, db) := by
  intro ps
  induction ps with
  | nil =>
    intro s db _ _
    unfold process_paths
    cases s
    simp [allFilesOf, countMatching]
  | cons p ps ih =>
    intro s db hconn hcov
    have hall : allFilesOf (p :: ps) = filesOfPath p ++ allFilesOf ps := by
      simp [allFilesOf]
    have hconnHead : (∃ f ∈ filesOfPath p, extLower f.path ∈ exts) → db.connOk = true := by
      rintro ⟨g, hg, hge⟩
      refine hconn ⟨g, ?_, hge⟩
      rw [hall, List.mem_append]
      exact Or.inl hg
    have hcovHead : ∀ f ∈ filesOfPath p, extLower f.path ∈ exts →
        md5Present db (compute_md5 f) = true := by
      intro g hg hge
      refine hcov g ?_ hge
      rw [hall, List.mem_append]
      exact Or.inl hg
    have hconnTail : (∃ f ∈ allFilesOf ps, extLower f.path ∈ exts) → db.connOk = true := by
      rintro ⟨g, hg, hge⟩
      refine hconn ⟨g, ?_, hge⟩
      rw [hall, List.mem_append]
      exact Or.inr hg
    have hcovTail : ∀ f ∈ allFilesOf ps, extLower f.path ∈ exts →
        md5Present db (compute_md5 f) = true := by
      intro g hg hge
      refine hcov g ?_ hge
      rw [hall, List.mem_append]
      exact Or.inr hg
    unfold process_paths
    rw [process_path_covered_run exts pv p s db hconnHead hcovHead]
    show process_paths exts pv (_, db) ps = _
    rw [ih _ db hconnTail hcovTail]
    rw [hall, countMatching_append]
    cases s
    simp [Nat.add_assoc]

theorem ingest_eq_body (paths : List PathInput) (db : Db) (eo : Option (List String))
    (pv : String) :
    ingest_raw_images paths db eo pv = ingest_body (resolveExtensions eo) pv paths db := by
  unfold ingest_raw_images withDatabaseManager
  cases ingest_body (resolveExtensions eo) pv paths db <;> rfl

theorem countMd5_dbWithImage (db : Db) (row : ImageRow) (m : String) :
    countMd5 (dbWithImage db row) m =
      countMd5 db m + (if (row.md5_checksum == m) = true then 1 else 0) := by
  unfold countMd5 dbWithImage
  simp only [List.filter_append, List.length_append]
  by_cases hb : (row.md5_checksum == m) = true
  · simp [List.filter_cons, hb]
  · simp [List.filter_cons, hb]

theorem countMd5_eq_zero_of_not_present (db : Db) (m : String)
    (h : md5Present db m = false) : countMd5 db m = 0 := by
  rw [md5Present, List.any_eq_false] at h
  unfold countMd5
  rw [List.length_eq_zero, List.filter_eq_nil_iff]
  intro r hr
  exact h r hr

theorem countMd5_pos_of_present (db : Db) (m : String)
    (h : md5Present db m = true) : 1 ≤ countMd5 db m := by
  rw [md5Present, List.any_eq_true] at h
  obtain ⟨r0, hr0, hp⟩ := h
  have hmem : r0 ∈ db.images.filter (fun r => r.md5_checksum == m) :=
    List.mem_filter.mpr ⟨hr0, hp⟩
  have := List.length_pos.mpr (List.ne_nil_of_mem hmem)
  unfold countMd5
  omega

/-- C1: for every database state satisfying the fingerprint-uniqueness
invariant that already holds a committed row with fingerprint m, calling
insert_image with any record carrying m raises DuplicateImageError (a
condition distinct from the DatabaseError constructor) instead of
inserting, the returned state is unchanged (the error carries no new
state), and the images table holds exactly one row with that
fingerprint; moreover every successful insert_image preserves the
uniqueness invariant, so the invariant holds of every database built
through insert_image. -/
theorem insert_image_rejects_duplicate_fingerprint :
    (∀ (db : Db) (fn : String) (fp : Option String) (m : String) (ir : Nat)
       (pid : Option Nat) (dt : Option String) (ob : Option Nat) (pv : Option String)
       (fm cr : Nat) (cd : Option String) (rd : Nat) (rdd : Option String),
      db.connOk = true → UniqueMd5 db → md5Present db m = true →
      insert_image db fn fp m ir pid dt ob pv fm cr cd rd rdd =
        .error (PyExc.duplicateImageError ("Duplicate MD5: " ++ m)) ∧
      countMd5 db m = 1) ∧
    (∀ (db : Db) (fn : String) (fp : Option String) (m : String) (ir : Nat)
       (pid : Option Nat) (dt : Option String) (ob : Option Nat) (pv : Option String)
       (fm cr : Nat) (cd : Option String) (rd : Nat) (rdd : Option String) (r : Nat × Db),
      UniqueMd5 db →
      insert_image db fn fp m ir pid dt ob pv fm cr cd rd rdd = .ok r →
      UniqueMd5 r.2) := by
  constructor
  · intro db fn fp m ir pid dt ob pv fm cr cd rd rdd hconn huniq hpres
    refine ⟨insert_image_dup db fn fp m ir pid dt ob pv fm cr cd rd rdd hconn hpres, ?_⟩
    have hle := huniq m
    have hge := countMd5_pos_of_present db m hpres
    omega
  · intro db fn fp m ir pid dt ob pv fm cr cd rd rdd r huniq hok
    obtain ⟨hconn, hnot, hr⟩ :=
      insert_image_ok_inv db fn fp m ir pid dt ob pv fm cr cd rd rdd r hok
    rw [hr]
    intro m'
    show countMd5 (dbWithImage db _) m' ≤ 1
    rw [countMd5_dbWithImage]
    by_cases hb : ((mkImageRow db fn fp m ir pid dt ob pv fm cr cd rd rdd).md5_checksum == m') = true
    · have hm' : m = m' := by simpa [mkImageRow] using hb
      rw [if_pos hb, ← hm', countMd5_eq_zero_of_not_present db m hnot]
    · rw [if_neg hb]
      have := huniq m'
      omega

/-- C1 witness: a concrete one-row database rejects a second record
with the same fingerprint and keeps exactly one matching row. -/
theorem insert_image_rejects_duplicate_fingerprint_witness :
    insert_image c1Db "dup.nef" (some "/data/raw/dup.nef")
        "abcdef1234567890abcdef1234567890" 1 none none none none 0 0 none 0 none =
      .error (PyExc.duplicateImageError
        ("Duplicate MD5: " ++ "abcdef1234567890abcdef1234567890")) ∧
    countMd5 c1Db "abcdef1234567890abcdef1234567890" = 1 :=
  insert_image_rejects_duplicate_fingerprint.1 c1Db "dup.nef"
    (some "/data/raw/dup.nef") "abcdef1234567890abcdef1234567890"
    1 none none none none 0 0 none 0 none rfl
    (by
      intro m
      have h := List.length_filter_le (fun r => r.md5_checksum == m) c1Db.images
      simpa [countMd5, c1Db] using h)
    (by decide)

/-- C2 (amended): running ingestion a second time over the same
unchanged inputs, against the state the first successful run produced,
completes with inserted = 0 and with duplicates equal to the count of
matching (scanned) files, which also equals the scanned count of the
first run.  (The originally claimed equality of second-run duplicates
with first-run inserted fails when the input set contains files of
equal content; see the counterexample.) -/
theorem ingest_second_run_all_duplicates (db0 : Db) (paths : List PathInput)
    (eo : Option (List String)) (pv : String) (s1 : Stats) (db1 : Db)
    (h : ingest_raw_images paths db0 eo pv = .ok (s1, db1)) :
    ingest_raw_images paths db1 eo pv =
      .ok ({ scanned := s1.scanned, inserted := 0, duplicates := s1.scanned,
             total_paths := paths.length }, db1) := by
  rw [ingest_eq_body] at h ⊢
  unfold ingest_body at h ⊢
  obtain ⟨hmono, hconn, hcov, hex, hscan⟩ :=
    process_paths_ok_inv (resolveExtensions eo) pv paths _ db0 s1 db1 h
  have hconn1 : (∃ f ∈ allFilesOf paths, extLower f.path ∈ resolveExtensions eo) →
      db1.connOk = true := by
    intro hx
    rw [hconn]
    exact hex hx
  rw [process_paths_covered_run (resolveExtensions eo) pv paths _ db1 hconn1 hcov]
  simp only [Nat.zero_add] at hscan ⊢
  rw [hscan]

set_option maxRecDepth 10000

/-- C2 counterexample: over a directory holding two files of identical
content, the first run inserts one image, and the second run reports
two duplicates, not one: the second-run duplicates count equals the
number of matching files, not the number the first run inserted. -/
theorem ingest_second_run_counterexample :
    (statsOf exRun1).map Stats.inserted = some 1 ∧
    (statsOf exRun2).map Stats.inserted = some 0 ∧
    (statsOf exRun2).map Stats.duplicates = some 2 ∧
    (statsOf exRun2).map Stats.duplicates ≠ (statsOf exRun1).map Stats.inserted := by
  decide

/-- C2 witness: a concrete second run over one already-ingested file
completes with one duplicate and nothing inserted. -/
theorem ingest_second_run_all_duplicates_witness :
    ingest_raw_images [.file wFile] wDb1 (some [".nef"]) "v0.1.0" =
      .ok ({ scanned := 1, inserted := 0, duplicates := 1, total_paths := 1 }, wDb1) :=
  ingest_second_run_all_duplicates
    ⟨true, [], [], [], 1, 1⟩ [.file wFile] (some [".nef"]) "v0.1.0"
    ⟨1, 1, 0, 1⟩ wDb1 (by decide)

/-- C3 (spec-modelled): acquiring the store as a scoped resource runs
the body and releases the connection on every exit path, both the
normal one and the exceptional one, and close_connection is safe to
call any number of times: a close on an already-closed handle succeeds
and leaves it closed.  The context-manager methods the with statement
relies on are absent from the sources under src and are modelled from
the spec. -/
theorem scoped_store_release :
    (∀ (α : Type) (db : Db) (body : Db → Except PyExc (α × Db)),
      (withDatabaseManager db body).2 = none) ∧
    close_connection (some ()) = .ok none ∧
    close_connection none = .ok none := by
  refine ⟨?_, rfl, rfl⟩
  intro α db body
  unfold withDatabaseManager
  cases body db <;> rfl

/-- C4: a storage failure from insert_image that is not the duplicate
condition is not swallowed by the per-file handler: process_file
re-raises it, the file and path loops stop at it, and
ingest_raw_images returns it; the duplicate condition instead is
caught, counted in the duplicates tally, and does not raise. -/
theorem ingest_storage_error_propagates :
    (∀ (exts : List String) (pv : String) (s : Stats) (db : Db) (f : SrcFile) (e : PyExc),
      extLower f.path ∈ exts →
      insert_image db (basenameOf f.path) (some f.path) (compute_md5 f) 1 none
        (extract_exif_date f) none (some pv) 0 0 none 0 none = .error e →
      catches PyExcClass.duplicateImageError e.cls = false →
      process_file exts pv (s, db) f = .error e) ∧
    (∀ (exts : List String) (pv : String) (s : Stats) (db : Db) (f : SrcFile) (e : PyExc),
      extLower f.path ∈ exts →
      insert_image db (basenameOf f.path) (some f.path) (compute_md5 f) 1 none
        (extract_exif_date f) none (some pv) 0 0 none 0 none = .error e →
      catches PyExcClass.duplicateImageError e.cls = true →
      process_file exts pv (s, db) f =
        .ok ({ s with scanned := s.scanned + 1, duplicates := s.duplicates + 1 }, db)) ∧
    (∀ (exts : List String) (pv : String) (acc : Stats × Db) (f : SrcFile)
       (fs : List SrcFile) (e : PyExc),
      process_file exts pv acc f = .error e →
      process_files exts pv acc (f :: fs) = .error e) ∧
    (∀ (exts : List String) (pv : String) (acc : Stats × Db) (p : PathInput)
       (ps : List PathInput) (e : PyExc),
      process_path exts pv acc p = .error e →
      process_paths exts pv acc (p :: ps) = .error e) ∧
    (∀ (paths : List PathInput) (db : Db) (eo : Option (List String)) (pv : String)
       (e : PyExc),
      ingest_body (resolveExtensions eo) pv paths db = .error e →
      ingest_raw_images paths db eo pv = .error e) := by
  refine ⟨?_, ?_, ?_, ?_, ?_⟩
  · intro exts pv s db f e hm hi hcat
    exact process_file_error_prop exts pv s db f e hm hi hcat
  · intro exts pv s db f e hm hi hcat
    obtain ⟨hconn, hpres, _⟩ :=
      insert_image_error_dup_inv db _ _ _ _ _ _ _ _ _ _ _ _ _ e hi
        ((catches_dup_iff e.cls).mp hcat)
    exact process_file_dup exts pv s db f hm hconn hpres
  · intro exts pv acc f fs e hf
    unfold process_files
    rw [hf]
  · intro exts pv acc p ps e hp
    unfold process_paths
    rw [hp]
  · intro paths db eo pv e hb
    rw [ingest_eq_body]
    exact hb

/-- C4 witness: with a broken connection the wrapped storage error from
insert_image propagates out of process_file and out of a whole
ingestion run, while a concrete duplicate is counted, not raised. -/
theorem ingest_storage_error_propagates_witness :
    process_file [".nef"] "v0.1.0" (⟨0, 0, 0, 1⟩, badDb) cFile =
      .error (PyExc.databaseError
        ("Error retrieving image by MD5=" ++ compute_md5 cFile)) ∧
    ingest_raw_images [.file cFile] badDb (some [".nef"]) "v0.1.0" =
      .error (PyExc.databaseError
        ("Error retrieving image by MD5=" ++ compute_md5 cFile)) ∧
    process_file [".nef"] "v0.1.0" (⟨0, 0, 0, 1⟩, dupDb) cFile =
      .ok (⟨1, 0, 1, 1⟩, dupDb) :=
  ⟨ingest_storage_error_propagates.1 [".nef"] "v0.1.0" ⟨0, 0, 0, 1⟩ badDb cFile
      (PyExc.databaseError ("Error retrieving image by MD5=" ++ compute_md5 cFile))
      (by decide) (by decide) (by decide),
   ingest_storage_error_propagates.2.2.2.2 [.file cFile] badDb (some [".nef"]) "v0.1.0"
      (PyExc.databaseError ("Error retrieving image by MD5=" ++ compute_md5 cFile))
      (by decide),
   ingest_storage_error_propagates.2.1 [".nef"] "v0.1.0" ⟨0, 0, 0, 1⟩ dupDb cFile
      (PyExc.duplicateImageError ("Duplicate MD5: " ++ compute_md5 cFile))
      (by decide) (by decide) (by decide)⟩

/-- C5 (spec-modelled): insert_rating fails with the storage condition
(DatabaseError wrapping the IntegrityError of the score CHECK) for the
out-of-range scores 0 and 6 against every state, never clamping or
ignoring them, while the boundary scores 1 and 5 succeed and return the
fresh rating id whenever the referenced painting and image exist; the
returned id is new: under the id-freshness invariant it differs from
every stored rating id.  The CHECK and foreign keys live in
db_schema.sql, which is not under src, and are modelled from the spec. -/
theorem insert_rating_score_range :
    ∀ (db : Db) (pid iid : Nat) (user : Option String),
    db.connOk = true →
    (insert_rating db pid iid 0 user = .error (PyExc.databaseError
        ("Error inserting rating for painting_id=" ++ toString pid ++ ", image_id=" ++
         toString iid ++ ": " ++ "sqlite3.IntegrityError: CHECK constraint failed: score")) ∧
     insert_rating db pid iid 6 user = .error (PyExc.databaseError
        ("Error inserting rating for painting_id=" ++ toString pid ++ ", image_id=" ++
         toString iid ++ ": " ++ "sqlite3.IntegrityError: CHECK constraint failed: score")) ∧
     ((db.paintings.any fun p => p.painting_id == pid) = true →
      (db.images.any fun r => r.image_id == iid) = true →
      insert_rating db pid iid 1 user = .ok (db.nextRatingId, dbWithRating db pid iid 1 user) ∧
      insert_rating db pid iid 5 user = .ok (db.nextRatingId, dbWithRating db pid iid 5 user)) ∧
     (RatingIdsFresh db → ∀ r ∈ db.ratings, r.rating_id ≠ db.nextRatingId)) := by
  intro db pid iid user hconn
  refine ⟨?_, ?_, ?_, ?_⟩
  · unfold insert_rating sqliteInsertRating
    rw [hconn]
    norm_num
  · unfold insert_rating sqliteInsertRating
    rw [hconn]
    norm_num
  · intro hp hi
    constructor
    · unfold insert_rating sqliteInsertRating
      rw [hconn, hp, hi]
      norm_num
    · unfold insert_rating sqliteInsertRating
      rw [hconn, hp, hi]
      norm_num
  · intro hf r hr
    exact Nat.ne_of_lt (hf r hr)

/-- C5 witness: against a database with one painting and one image,
scores 0 and 6 fail with the storage condition and scores 1 and 5
succeed with the fresh id 1. -/
theorem insert_rating_score_range_witness :
    insert_rating c5Db 1 1 0 none = .error (PyExc.databaseError
        ("Error inserting rating for painting_id=" ++ toString 1 ++ ", image_id=" ++
         toString 1 ++ ": " ++ "sqlite3.IntegrityError: CHECK constraint failed: score")) ∧
    insert_rating c5Db 1 1 6 none = .error (PyExc.databaseError
        ("Error inserting rating for painting_id=" ++ toString 1 ++ ", image_id=" ++
         toString 1 ++ ": " ++ "sqlite3.IntegrityError: CHECK constraint failed: score")) ∧
    insert_rating c5Db 1 1 1 none = .ok (1, dbWithRating c5Db 1 1 1 none) ∧
    insert_rating c5Db 1 1 5 none = .ok (1, dbWithRating c5Db 1 1 5 none) :=
  ⟨(insert_rating_score_range c5Db 1 1 none rfl).1,
   (insert_rating_score_range c5Db 1 1 none rfl).2.1,
   ((insert_rating_score_range c5Db 1 1 none rfl).2.2.1 (by decide) (by decide)).1,
   ((insert_rating_score_range c5Db 1 1 none rfl).2.2.1 (by decide) (by decide)).2⟩

/-- C6 (amended): the ingestion filter lowercases the file suffix and
then tests exact membership in the allow-list, so the comparison is
insensitive to the case of the file suffix but sensitive to the case of
the allow-list entries: it agrees with a genuinely case-insensitive
comparison exactly when the allow-list entries are lowercase (as the
defaults are); and a file whose suffix does not pass the filter is
skipped with the whole summary, including the scanned count, and the
database unchanged. -/
theorem extension_filter_lowered_suffix :
    (∀ (exts : List String) (p : String), (∀ e ∈ exts, lowerStr e = e) →
      ((extLower p ∈ exts) ↔ ciMatchExt exts p = true)) ∧
    (∀ (exts : List String) (pv : String) (acc : Stats × Db) (f : SrcFile),
      extLower f.path ∉ exts → process_file exts pv acc f = .ok acc) := by
  constructor
  · intro exts p hlow
    unfold ciMatchExt
    rw [List.any_eq_true]
    constructor
    · intro hm
      refine ⟨extLower p, hm, ?_⟩
      rw [hlow (extLower p) hm]
      exact beq_self_eq_true _
    · rintro ⟨e, he, hbeq⟩
      rw [beq_iff_eq, hlow e he] at hbeq
      exact hbeq ▸ he
  · intro exts pv acc f hm
    exact process_file_skip exts pv acc f hm

/-- C6 counterexample: with the allow-list [".NEF"] and the file
/data/raw/a.NEF, a genuinely case-insensitive comparison matches, but
the filter comparison fails and the file is skipped without being
scanned, refuting case-insensitivity of the comparison for every
allow-list. -/
theorem extension_filter_counterexample :
    ciMatchExt [".NEF"] caseFile.path = true ∧
    ¬ (extLower caseFile.path ∈ ([".NEF"] : List String)) ∧
    process_file [".NEF"] "v0.1.0" (⟨0, 0, 0, 1⟩, exDb0) caseFile =
      .ok (⟨0, 0, 0, 1⟩, exDb0) := by
  decide

/-- C6 witness: for the lowercase allow-list [".nef"] the filter agrees
with the case-insensitive comparison on an uppercase-suffix path, and a
non-matching file is skipped with the summary unchanged. -/
theorem extension_filter_lowered_suffix_witness :
    ((extLower "/data/raw/b.NEF" ∈ ([".nef"] : List String)) ↔
      ciMatchExt [".nef"] "/data/raw/b.NEF" = true) ∧
    process_file [".jpg"] "v0.1.0" (⟨0, 0, 0, 1⟩, exDb0) caseFile =
      .ok (⟨0, 0, 0, 1⟩, exDb0) :=
  ⟨extension_filter_lowered_suffix.1 [".nef"] "/data/raw/b.NEF" (by decide),
   extension_filter_lowered_suffix.2 [".jpg"] "v0.1.0" (⟨0, 0, 0, 1⟩, exDb0) caseFile
     (by decide)⟩

/-- C7: extract_exif_date is total (every failure path yields none
rather than an exception): when the file is readable and the tag value
is a whitespace-free colon-separated date, a space, and a
whitespace-free time, the result replaces the colons of the date part
with dashes and joins the parts with a T; an unreadable file, a missing
tag, or a value that does not split into exactly two fields all yield
none. -/
theorem extract_exif_date_contract :
    (∀ (f : SrcFile) (v : String) (d t : List Char),
      f.exifReadable = true → f.exifDateTimeOriginal = some v →
      v.data = d ++ ' ' :: t → d ≠ [] → t ≠ [] →
      (∀ c ∈ d, pyIsSpace c = false) → (∀ c ∈ t, pyIsSpace c = false) →
      extract_exif_date f = some (String.mk (d.map colonDash ++ 'T' :: t))) ∧
    (∀ f : SrcFile, f.exifReadable = false → extract_exif_date f = none) ∧
    (∀ f : SrcFile, f.exifDateTimeOriginal = none → extract_exif_date f = none) ∧
    (∀ (f : SrcFile) (v : String), f.exifReadable = true →
      f.exifDateTimeOriginal = some v → (wsplit v.data).length ≠ 2 →
      extract_exif_date f = none) := by
  refine ⟨?_, ?_, ?_, ?_⟩
  · intro f v d t hread htag hdata hdne htne hdns htns
    unfold extract_exif_date
    rw [hread, htag]
    simp only [if_true]
    have hemp : v.data.isEmpty = false := by
      rw [hdata]
      cases d with
      | nil => simp
      | cons c d' => simp
    rw [hemp]
    simp only [Bool.false_eq_true, if_false]
    rw [hdata, wsplit_two d t hdns htns hdne htne]
  · intro f hread
    unfold extract_exif_date
    rw [hread]
    simp
  · intro f htag
    unfold extract_exif_date
    rw [htag]
    cases f.exifReadable <;> simp
  · intro f v hread htag hlen
    unfold extract_exif_date
    rw [hread, htag]
    simp only [if_true]
    by_cases hemp : v.data.isEmpty = true
    · rw [hemp]
      simp
    · rw [Bool.eq_false_iff.mpr hemp]
      simp only [Bool.false_eq_true, if_false]
      rcases hw : wsplit v.data with _ | ⟨x, _ | ⟨y, _ | ⟨z, rest⟩⟩⟩
      · simp
      · simp
      · rw [hw] at hlen
        simp at hlen
      · simp

/-- C7 witness: a well-formed raw EXIF value is normalized with the
date colons replaced by dashes and a T separator. -/
theorem extract_exif_date_contract_witness :
    extract_exif_date exifFile =
      some (String.mk ("2023:01:02".data.map colonDash ++ 'T' :: "10:11:12".data)) :=
  extract_exif_date_contract.1 exifFile "2023:01:02 10:11:12"
    "2023:01:02".data "10:11:12".data rfl rfl (by decide) (by decide) (by decide)
    (by decide) (by decide)

/-- C8: update_image with the empty field set returns the state
unchanged and executes no SQL statement, for every image id; with
exactly the field set cropped = 1, cropped_date = T it executes one
UPDATE that rewrites exactly those two fields of every row with the
given image id and leaves every other field of that row and every other
row untouched. -/
theorem update_image_partial_semantics :
    (∀ (db : Db) (iid : Nat), update_image db iid emptyImageUpdate = .ok (db, 0)) ∧
    (∀ (db : Db) (iid : Nat) (t : String), db.connOk = true →
      update_image db iid (cropUpdate t) =
        .ok ({ db with images := db.images.map (fun r => if r.image_id == iid then { r with cropped := 1, cropped_date := some t } else r) }, 1)) ∧
    (∀ (r : ImageRow) (t : String),
      (applyImageUpdate r (cropUpdate t)).cropped = 1 ∧
      (applyImageUpdate r (cropUpdate t)).cropped_date = some t ∧
      (applyImageUpdate r (cropUpdate t)).image_id = r.image_id ∧
      (applyImageUpdate r (cropUpdate t)).filename = r.filename ∧
      (applyImageUpdate r (cropUpdate t)).file_path = r.file_path ∧
      (applyImageUpdate r (cropUpdate t)).md5_checksum = r.md5_checksum ∧
      (applyImageUpdate r (cropUpdate t)).is_raw = r.is_raw ∧
      (applyImageUpdate r (cropUpdate t)).parent_image_id = r.parent_image_id ∧
      (applyImageUpdate r (cropUpdate t)).date_taken = r.date_taken ∧
      (applyImageUpdate r (cropUpdate t)).order_in_batch = r.order_in_batch ∧
      (applyImageUpdate r (cropUpdate t)).pipeline_version = r.pipeline_version ∧
      (applyImageUpdate r (cropUpdate t)).flash_missing = r.flash_missing ∧
      (applyImageUpdate r (cropUpdate t)).rotation_degrees = r.rotation_degrees ∧
      (applyImageUpdate r (cropUpdate t)).rotated_date = r.rotated_date) := by
  refine ⟨?_, ?_, ?_⟩
  · intro db iid
    rfl
  · intro db iid t hconn
    unfold update_image
    have hne : (cropUpdate t).isEmpty = false := rfl
    rw [hne]
    simp only [Bool.false_eq_true, if_false, hconn, if_true]
    rfl
  · intro r t
    exact ⟨rfl, rfl, rfl, rfl, rfl, rfl, rfl, rfl, rfl, rfl, rfl, rfl, rfl, rfl⟩

/-- C8 witness: against a concrete one-row database, updating cropped
and cropped_date changes exactly those two fields of that row. -/
theorem update_image_partial_semantics_witness :
    update_image wDb1 1 (cropUpdate "2025-01-30T10:00:00") =
      .ok ({ wDb1 with images := wDb1.images.map (fun r => if r.image_id == 1 then { r with cropped := 1, cropped_date := some "2025-01-30T10:00:00" } else r) }, 1) :=
  update_image_partial_semantics.2.1 wDb1 1 "2025-01-30T10:00:00" rfl

/-- C9: compute_md5 depends only on the byte content of the file, never
on its path or metadata, so identical content yields the identical
digest; the digest is a 32-character string of lowercase hexadecimal
digits; and the hash is fed by streaming: compute_md5 folds the chunks
delivered by f.read(4096) into the hash, each chunk at most 4096 bytes,
the chunks concatenating to exactly the file content, and the result
equals the digest of that content. -/
theorem compute_md5_streaming_content_hash :
    (∀ f1 f2 : SrcFile, f1.content = f2.content → compute_md5 f1 = compute_md5 f2) ∧
    (∀ f : SrcFile, (compute_md5 f).length = 32 ∧ ∀ c ∈ (compute_md5 f).data, c ∈ hexDigits) ∧
    (∀ f : SrcFile, compute_md5 f = md5Hex f.content ∧
      (chunksOf 4096 f.content).flatten = f.content ∧
      ∀ ch ∈ chunksOf 4096 f.content, ch.length ≤ 4096) := by
  refine ⟨?_, ?_, ?_⟩
  · intro f1 f2 hc
    rw [compute_md5_eq, compute_md5_eq, hc]
  · intro f
    rw [compute_md5_eq]
    exact ⟨md5Hex_length _, md5Hex_chars _⟩
  · intro f
    refine ⟨compute_md5_eq f, ?_, ?_⟩
    · exact chunksAux_flatten 4096 (by omega) f.content.length f.content (Nat.le_refl _)
    · exact fun ch hch => chunksAux_chunk_le 4096 f.content.length f.content ch hch

/-- C9 witness: two files with the same bytes under different names
produce the same digest. -/
theorem compute_md5_streaming_content_hash_witness :
    compute_md5 exFileA = compute_md5 exFileB :=
  compute_md5_streaming_content_hash.1 exFileA exFileB rfl

/-- C10: DuplicateImageError is a subclass of DatabaseError, so every
handler that catches the generic storage error also catches the
duplicate condition, and across a sequence of except clauses the two
signals land in different handlers only when a DuplicateImageError
clause fires first for the duplicate. -/
theorem duplicate_condition_subclass_dispatch :
    isSubclass PyExcClass.duplicateImageError PyExcClass.databaseError = true ∧
    (∀ h : PyExcClass, catches h PyExcClass.databaseError = true →
      catches h PyExcClass.duplicateImageError = true) ∧
    (∀ hs : List PyExcClass,
      firstHandler hs PyExcClass.duplicateImageError ≠
        firstHandler hs PyExcClass.databaseError →
      firstHandler hs PyExcClass.duplicateImageError =
        some PyExcClass.duplicateImageError) := by
  refine ⟨by decide, ?_, ?_⟩
  · intro h
    cases h <;> decide
  · intro hs
    cases hs with
    | nil =>
      intro hne
      exact absurd rfl hne
    | cons h tl =>
      cases h with
      | exceptionBase =>
        intro hne
        exfalso
        apply hne
        unfold firstHandler
        rw [List.find?_cons_of_pos tl (by decide), List.find?_cons_of_pos tl (by decide)]
      | databaseError =>
        intro hne
        exfalso
        apply hne
        unfold firstHandler
        rw [List.find?_cons_of_pos tl (by decide), List.find?_cons_of_pos tl (by decide)]
      | duplicateImageError =>
        intro _
        unfold firstHandler
        rw [List.find?_cons_of_pos tl (by decide)]

/-- C10 witness: the Exception-level handler catches the duplicate
condition, and with the duplicate clause first the duplicate lands in
its own handler. -/
theorem duplicate_condition_subclass_dispatch_witness :
    catches PyExcClass.exceptionBase PyExcClass.duplicateImageError = true ∧
    firstHandler [PyExcClass.duplicateImageError, PyExcClass.databaseError]
        PyExcClass.duplicateImageError = some PyExcClass.duplicateImageError :=
  ⟨duplicate_condition_subclass_dispatch.2.1 PyExcClass.exceptionBase (by decide),
   duplicate_condition_subclass_dispatch.2.2
     [PyExcClass.duplicateImageError, PyExcClass.databaseError] (by decide)⟩
